import Mathlib

/-!
A shallow embedding of the scheduling and pipeline-orchestration core of the
AV-ETL-API repository (extract / transform / load over intraday OHLCV data,
market-hours scheduling, and the streaming control loop), together with
theorems settling the stated properties of that core.

Prices are modelled as rationals and volumes as integers; timestamps are
abstract instants (natural numbers).  Database calls that may raise are
modelled through an explicit fault environment; every such exception is caught
inside the component that makes the call, exactly as in the source, so fault
paths surface as `false` / `0` returns and missing writes rather than as Lean
failures.
-/

namespace AVETL

/-- OHLCV record produced by the transformer
(`MODELS/models.py`, class `StockPriceIntraday`). -/
structure StockPriceIntraday where
  stock_symbol : String
  timestamp : Nat
  open_price : ℚ
  high_price : ℚ
  low_price : ℚ
  close_price : ℚ
  volume : ℤ
  interval : String
deriving DecidableEq

/-- Stock descriptor (`MODELS/models.py`, class `Stock`). -/
structure Stock where
  symbol : String
  company_name : String
  exchange : String
  is_active : Bool
deriving DecidableEq

/-- One raw time-series entry as the transformer sees it, holding the parse
results of the timestamp string and of the five OHLCV fields.  A field on
which `float` / `int` raises is `none`; a missing field defaults to `some 0`,
matching `price_data.get(key, 0)` in `transform.py`. -/
structure RawEntry where
  ts : Option Nat
  openF : Option ℚ
  highF : Option ℚ
  lowF : Option ℚ
  closeF : Option ℚ
  volumeF : Option ℤ
deriving DecidableEq

/-- `DataTransformer._validate_price_data` (`ETL/transform.py`, lines 147-168),
translated branch for branch. -/
def validate_price_data (open_price high_price low_price close_price : ℚ)
    (volume : ℤ) : Bool :=
  if open_price ≤ 0 || high_price ≤ 0 || low_price ≤ 0 || close_price ≤ 0 then false
  else if volume < 0 then false
  else if high_price < max open_price close_price then false
  else if low_price > min open_price close_price then false
  else if open_price > 1000000 || high_price > 1000000 ||
          low_price > 1000000 || close_price > 1000000 then false
  else true

/-- The body of the per-entry loop of `DataTransformer._create_price_objects`
(`ETL/transform.py`, lines 83-119): an entry whose timestamp or numeric fields
fail to parse is skipped, an entry failing validation is skipped, and an
accepted entry becomes one record. -/
def entryRecord (symbol : String) (interval : String) (e : RawEntry) :
    Option StockPriceIntraday :=
  match e.ts, e.openF, e.highF, e.lowF, e.closeF, e.volumeF with
  | some t, some o, some h, some l, some c, some v =>
    if validate_price_data o h l c v then
      some { stock_symbol := symbol, timestamp := t, open_price := o,
             high_price := h, low_price := l, close_price := c,
             volume := v, interval := interval }
    else none
  | _, _, _, _, _, _ => none

/-- Whether a raw entry is accepted by the transformer: every field parses and
the parsed values pass `validate_price_data`. -/
def entryAccepted (e : RawEntry) : Bool :=
  match e.ts, e.openF, e.highF, e.lowF, e.closeF, e.volumeF with
  | some _, some o, some h, some l, some c, some v => validate_price_data o h l c v
  | _, _, _, _, _, _ => false

/-- `DataTransformer._create_price_objects` (`ETL/transform.py`, lines 79-121):
map the accepted entries of the series, in order, to records. -/
def create_price_objects (symbol : String)
    (time_series : List (String × RawEntry)) (interval : String) :
    List StockPriceIntraday :=
  time_series.filterMap (fun p => entryRecord symbol interval p.2)

/-- The raw payload dictionary handed to the transformer.
`time_series = none` models a payload whose time-series container is absent or
malformed (iterating it would raise). -/
structure RawData where
  symbol : String
  interval : String
  time_series : Option (List (String × RawEntry))
deriving DecidableEq

/-- `DataTransformer._create_stock_object` (`ETL/transform.py`, lines 70-77). -/
def create_stock_object (symbol : String) : Stock :=
  { symbol := symbol, company_name := symbol ++ " Stock",
    exchange := "NYSE", is_active := true }

/-- The successful output of `transform_intraday_data`. -/
structure TransformedData where
  stock : Stock
  price_records : List StockPriceIntraday
  meta_symbol : String
  meta_interval : String
deriving DecidableEq

/-- `DataTransformer.transform_intraday_data` (`ETL/transform.py`, lines
20-68).  The argument is `none` when `raw_data` is falsy.  Note the check at
lines 48-50: an empty record list makes the whole transform return `None`. -/
def transform_intraday_data (raw_data : Option RawData) :
    Option TransformedData :=
  match raw_data with
  | none => none
  | some rd =>
    match rd.time_series with
    | none => none
    | some ts =>
      let price_records := create_price_objects rd.symbol ts rd.interval
      if price_records.isEmpty then none
      else some { stock := create_stock_object rd.symbol,
                  price_records := price_records,
                  meta_symbol := rd.symbol, meta_interval := rd.interval }

theorem validate_price_data_spec (o h l c : ℚ) (v : ℤ) :
    validate_price_data o h l c v = true ↔
      (0 < o ∧ 0 < h ∧ 0 < l ∧ 0 < c ∧ 0 ≤ v ∧
       max o c ≤ h ∧ l ≤ min o c ∧
       o ≤ 1000000 ∧ h ≤ 1000000 ∧ l ≤ 1000000 ∧ c ≤ 1000000) := by
  unfold validate_price_data
  split_ifs with h1 h2 h3 h4 h5
  · simp only [Bool.or_eq_true, decide_eq_true_eq] at h1
    simp only [false_iff]
    rintro ⟨ho, hh, hl, hc, -⟩
    rcases h1 with (((h1 | h1) | h1) | h1) <;> linarith
  · simp only [decide_eq_true_eq] at h2
    simp only [false_iff]
    rintro ⟨-, -, -, -, hv, -⟩
    omega
  · simp only [decide_eq_true_eq] at h3
    simp only [false_iff]
    rintro ⟨-, -, -, -, -, hmax, -⟩
    linarith
  · simp only [decide_eq_true_eq] at h4
    simp only [false_iff]
    rintro ⟨-, -, -, -, -, -, hmin, -⟩
    linarith
  · simp only [Bool.or_eq_true, decide_eq_true_eq] at h5
    simp only [false_iff]
    rintro ⟨-, -, -, -, -, -, -, hco, hch, hcl, hcc⟩
    rcases h5 with (((h5 | h5) | h5) | h5) <;> linarith
  · simp only [Bool.or_eq_true, decide_eq_true_eq, not_or] at h1 h5
    simp only [decide_eq_true_eq] at h2 h3 h4
    push_neg at h1 h2 h3 h4 h5
    simp only [true_iff]
    refine ⟨by linarith [h1.1.1.1], by linarith [h1.1.1.2], by linarith [h1.1.2],
      by linarith [h1.2], by omega, by linarith [h3], by linarith [h4],
      by linarith [h5.1.1.1], by linarith [h5.1.1.2], by linarith [h5.1.2],
      by linarith [h5.2]⟩

theorem entryRecord_isSome (s i : String) (e : RawEntry) :
    (entryRecord s i e).isSome = entryAccepted e := by
  unfold entryRecord entryAccepted
  rcases e with ⟨ts, o, h, l, c, v⟩
  cases ts <;> cases o <;> cases h <;> cases l <;> cases c <;> cases v <;>
    simp <;> split <;> simp_all

theorem create_price_objects_length (symbol interval : String)
    (time_series : List (String × RawEntry)) :
    (create_price_objects symbol time_series interval).length =
      time_series.countP (fun p => entryAccepted p.2) := by
  induction time_series with
  | nil => rfl
  | cons hd tl ih =>
    simp only [create_price_objects, List.filterMap_cons, List.countP_cons] at *
    cases hrec : entryRecord symbol interval hd.2 with
    | none =>
      have := entryRecord_isSome symbol interval hd.2
      rw [hrec] at this
      simp only [Option.isSome_none] at this
      simp [← this, ih]
    | some r =>
      have := entryRecord_isSome symbol interval hd.2
      rw [hrec] at this
      simp only [Option.isSome_some] at this
      simp [← this, ih]

/-- What one fetch against the provider produced, after JSON decoding.
`requestFailure` covers the exception branches of `extract_intraday_data`
(timeout, connection failure, malformed body); a decoded body records whether
the in-band `Error Message` or `Note` keys are present and carries the
time-series container (`none` when the expected `Time Series (interval)` key
is absent). -/
inductive FetchResult where
  | response (errorMessage : Bool) (note : Bool)
      (timeSeries : Option (List (String × RawEntry))) : FetchResult
  | requestFailure : FetchResult
deriving DecidableEq

/-- `DataExtractor.extract_intraday_data` (`ETL/extract.py`, lines 39-113):
every failure branch returns `None`; the success branch packages the
upper-cased symbol, the interval and the time-series container. -/
def extract_intraday_data (fetched : FetchResult) (symbol : String)
    (interval : String) : Option RawData :=
  match fetched with
  | .requestFailure => none
  | .response errorMessage note timeSeries =>
    if errorMessage then none
    else if note then none
    else
      match timeSeries with
      | none => none
      | some ts =>
        if ts.isEmpty then none
        else some { symbol := symbol.toUpper, interval := interval,
                    time_series := some ts }

/-- The five-outcome taxonomy of extraction results named by the
specification. -/
inductive ExtractOutcome where
  | success
  | emptySeries
  | providerError
  | rateLimited
  | transportError
deriving DecidableEq

/-- The classification the control flow of `extract_intraday_data`
distinguishes, branch for branch: a raised request is a transport error, the
in-band `Error Message` key is a provider error, the `Note` key is the
provider rate limit, a missing time-series container is a malformed body
(transport error), an empty container is the empty-series case, and anything
else succeeds. -/
def classify_extract (fetched : FetchResult) : ExtractOutcome :=
  match fetched with
  | .requestFailure => .transportError
  | .response errorMessage note timeSeries =>
    if errorMessage then .providerError
    else if note then .rateLimited
    else
      match timeSeries with
      | none => .transportError
      | some ts => if ts.isEmpty then .emptySeries else .success

theorem extract_isSome_iff (fetched : FetchResult) (symbol interval : String) :
    (extract_intraday_data fetched symbol interval).isSome = true ↔
      classify_extract fetched = .success := by
  cases fetched with
  | requestFailure => simp [extract_intraday_data, classify_extract]
  | response em note ts =>
    cases em <;> cases note <;> cases ts <;>
      simp [extract_intraday_data, classify_extract] <;> split <;> simp_all

theorem extract_nonempty (fetched : FetchResult) (symbol interval : String)
    (rd : RawData) (hrd : extract_intraday_data fetched symbol interval = some rd) :
    ∃ ts, rd.time_series = some ts ∧ ts ≠ [] := by
  cases fetched with
  | requestFailure => simp [extract_intraday_data] at hrd
  | response em note ts =>
    cases em
    · cases note
      · cases ts with
        | none => simp [extract_intraday_data] at hrd
        | some l =>
          by_cases hl : l.isEmpty
          · simp [extract_intraday_data, hl] at hrd
          · simp only [extract_intraday_data, hl, Bool.false_eq_true, if_false,
              Option.some_inj] at hrd
            refine ⟨l, ?_, fun h => hl (by simp [h])⟩
            rw [← hrd]
      · simp [extract_intraday_data] at hrd
    · simp [extract_intraday_data] at hrd

/-- One row of the `stock_prices_intraday` table. -/
structure PriceRow where
  stock_symbol : String
  timestamp : Nat
  interval : String
  open_price : ℚ
  high_price : ℚ
  low_price : ℚ
  close_price : ℚ
  volume : ℤ
deriving DecidableEq

/-- One row of the `etl_job_logs` table. -/
structure JobLog where
  job_name : String
  status : String
  records_processed : Nat
  total_records : Nat
  error_message : Option String
deriving DecidableEq

/-- The relational store: the `stocks` table (as the set of present symbols),
the `stock_prices_intraday` table and the `etl_job_logs` table. -/
structure Database where
  stocks : List String
  prices : List PriceRow
  logs : List JobLog
deriving DecidableEq

def emptyDatabase : Database := { stocks := [], prices := [], logs := [] }

/-- The natural key (stock symbol, timestamp, interval) of a stored row. -/
def rowKey (r : PriceRow) : String × Nat × String :=
  (r.stock_symbol, r.timestamp, r.interval)

/-- The natural key of a record about to be loaded. -/
def recKey (r : StockPriceIntraday) : String × Nat × String :=
  (r.stock_symbol, r.timestamp, r.interval)

/-- The row the INSERT branch of `_load_single_price_record` writes. -/
def rowOfRecord (r : StockPriceIntraday) : PriceRow :=
  { stock_symbol := r.stock_symbol, timestamp := r.timestamp,
    interval := r.interval, open_price := r.open_price,
    high_price := r.high_price, low_price := r.low_price,
    close_price := r.close_price, volume := r.volume }

/-- The UPDATE branch of `_load_single_price_record`: overwrite the five
numeric fields of a matching row, keeping its key. -/
def updateRow (r : StockPriceIntraday) (row : PriceRow) : PriceRow :=
  { row with
      open_price := r.open_price,
      high_price := r.high_price,
      low_price := r.low_price,
      close_price := r.close_price,
      volume := r.volume }

/-- Fault environment: which provider fetch each symbol gets, and which
database calls raise.  All such exceptions are caught where they arise in the
source, so they appear here only through `false` / `0` results. -/
structure Env where
  fetch : String → FetchResult
  dbConnFails : String → Bool
  stockDbFails : String → Bool
  recordDbFails : StockPriceIntraday → Bool

/-- `DataLoader.load_stock` (`app/load.py`, lines 21-61): insert-if-absent on
the symbol; a raised database error is caught and reported as `false`. -/
def load_stock (env : Env) (db : Database) (stock : Stock) : Bool × Database :=
  if env.stockDbFails stock.symbol then (false, db)
  else if stock.symbol ∈ db.stocks then (true, db)
  else (true, { db with stocks := db.stocks ++ [stock.symbol] })

/-- `DataLoader._load_single_price_record` (`app/load.py`, lines 92-156):
check for a row with the same (symbol, timestamp, interval) key, update the
numeric fields if one exists, insert otherwise; a raised database error is
caught and reported as `false` with no write. -/
def load_single_price_record (env : Env) (db : Database)
    (r : StockPriceIntraday) : Bool × Database :=
  if env.recordDbFails r then (false, db)
  else if db.prices.any (fun row => decide (rowKey row = recKey r)) then
    (true, { db with
               prices := db.prices.map
                 (fun row => if rowKey row = recKey r then updateRow r row else row) })
  else
    (true, { db with prices := db.prices ++ [rowOfRecord r] })

/-- `DataLoader.load_intraday_prices` (`app/load.py`, lines 63-90): load each
record in order, counting the successes; an empty input returns 0. -/
def load_intraday_prices (env : Env) (db : Database) :
    List StockPriceIntraday → Nat × Database
  | [] => (0, db)
  | r :: tl =>
    let s := load_single_price_record env db r
    let rest := load_intraday_prices env s.2 tl
    ((if s.1 then 1 else 0) + rest.1, rest.2)

/-- `DataLoader._log_etl_job` (`app/load.py`, lines 248-274): append one row
to the job-log table. -/
def log_etl_job (db : Database) (symbol : String)
    (total_records processed_records : Nat) (status : String)
    (error_message : Option String) : Database :=
  { db with
      logs := db.logs ++
        [{ job_name := "intraday_etl_" ++ symbol, status := status,
           records_processed := processed_records,
           total_records := total_records, error_message := error_message }] }

/-- The dictionary argument of `load_transformed_data`, with each expected key
possibly missing (`none`); looking a missing key up raises `KeyError`, which
lands the call in its `except` branch. -/
structure TransformedDict where
  meta_symbol : Option String
  stock : Option Stock
  price_records : Option (List StockPriceIntraday)
deriving DecidableEq

/-- The result dictionary of `load_transformed_data`; a key absent on a branch
is read back with `.get` defaults, so `prices_loaded` is 0 on failures. -/
structure LoadResult where
  success : Bool
  prices_loaded : Nat
  total_price_records : Nat
  error : Option String
deriving DecidableEq

/-- `DataLoader.load_transformed_data` (`app/load.py`, lines 158-214).  The
argument is `none` for a falsy `transformed_data`.  Note the early return at
lines 181-186: when `load_stock` reports failure the call returns without
appending a job-log row, while the success path and the `except` branch each
append exactly one row. -/
def load_transformed_data (env : Env) (db : Database)
    (transformed_data : Option TransformedDict) : LoadResult × Database :=
  match transformed_data with
  | none =>
    ({ success := false, prices_loaded := 0, total_price_records := 0,
       error := some "No transformed data" }, db)
  | some td =>
    match td.meta_symbol, td.stock, td.price_records with
    | some symbol, some stock, some price_records =>
      let s := load_stock env db stock
      if s.1 = false then
        ({ success := false, prices_loaded := 0, total_price_records := 0,
           error := some "Failed to load stock information" }, s.2)
      else
        let ld := load_intraday_prices env s.2 price_records
        ({ success := true, prices_loaded := ld.1,
           total_price_records := price_records.length, error := none },
         log_etl_job ld.2 symbol price_records.length ld.1 "SUCCESS" none)
    | _, _, _ =>
      let symbol := td.meta_symbol.getD "unknown"
      ({ success := false, prices_loaded := 0, total_price_records := 0,
         error := some "KeyError" },
       log_etl_job db symbol 0 0 "FAILED" (some "KeyError"))

/-- The transformer output packaged as the dictionary the loader receives;
every key is present. -/
def toDict (td : TransformedData) : TransformedDict :=
  { meta_symbol := some td.meta_symbol, stock := some td.stock,
    price_records := some td.price_records }

/-- `ETLService.process_stock_intraday` (`intraday_pipeline.py`, lines 39-90):
one symbol through extract, transform and load.  Every failure path returns 0
after logging; the surrounding `try` catches any exception (modelled by
`dbConnFails`, covering the `_ensure_db_connection` call), so the function is
total and never raises to its caller. -/
def process_stock_intraday (env : Env) (db : Database) (symbol : String)
    (interval : String) : Nat × Database :=
  if env.dbConnFails symbol then
    (0, log_etl_job db symbol 0 0 "FAILED" (some "exception"))
  else
    match extract_intraday_data (env.fetch symbol) symbol interval with
    | none => (0, log_etl_job db symbol 0 0 "FAILED" (some "Extraction failed"))
    | some raw =>
      match transform_intraday_data (some raw) with
      | none =>
        (0, log_etl_job db symbol 0 0 "FAILED" (some "Transformation failed"))
      | some td =>
        let ld := load_transformed_data env db (some (toDict td))
        if ld.1.success then (ld.1.prices_loaded, ld.2) else (0, ld.2)

/-- Python dict assignment `results[symbol] = v`: overwrite the binding if the
key is present, keeping its position, else append. -/
def insertAssoc : List (String × Nat) → String → Nat → List (String × Nat)
  | [], k, v => [(k, v)]
  | p :: tl, k, v => if p.1 = k then (k, v) :: tl else p :: insertAssoc tl k v

/-- Python dict lookup `results[symbol]` as an option. -/
def lookupAssoc : List (String × Nat) → String → Option Nat
  | [], _ => none
  | p :: tl, k => if p.1 = k then some p.2 else lookupAssoc tl k

/-- The loop body of `process_multiple_stocks_intraday`, threading the results
dictionary and the database through the symbol list. -/
def process_multiple_go (env : Env) (interval : String) :
    List String → List (String × Nat) × Database →
      List (String × Nat) × Database
  | [], acc => acc
  | s :: tl, acc =>
    let one := process_stock_intraday env acc.2 s interval
    process_multiple_go env interval tl (insertAssoc acc.1 s one.1, one.2)

/-- `ETLService.process_multiple_stocks_intraday` (`intraday_pipeline.py`,
lines 92-118): run the per-symbol pipeline over the whole list, recording each
count in the results dictionary; the per-symbol `try` makes one failure
invisible to the rest of the loop. -/
def process_multiple_stocks_intraday (env : Env) (db : Database)
    (symbols : List String) (interval : String) :
    List (String × Nat) × Database :=
  process_multiple_go env interval symbols ([], db)

/-- The parts of `datetime` the scheduler uses: an absolute day index (with
`day % 7 = 0` on Monday, matching `datetime.weekday`) and the time of day.
Comparison is lexicographic, as on `datetime`. -/
structure DateTime where
  day : Nat
  hour : Nat
  minute : Nat
  second : Nat
deriving DecidableEq

/-- `datetime.weekday()`: Monday is 0, Sunday is 6. -/
def DateTime.weekday (t : DateTime) : Nat := t.day % 7

/-- Strict lexicographic comparison of instants, as `<` on `datetime`. -/
def DateTime.ltb (a b : DateTime) : Bool :=
  if a.day ≠ b.day then decide (a.day < b.day)
  else if a.hour ≠ b.hour then decide (a.hour < b.hour)
  else if a.minute ≠ b.minute then decide (a.minute < b.minute)
  else decide (a.second < b.second)

/-- `t.replace(hour=h, minute=0, second=0, microsecond=0)`. -/
def DateTime.atHour (t : DateTime) (h : Nat) : DateTime :=
  { day := t.day, hour := h, minute := 0, second := 0 }

/-- `MarketSchedule` (`DATA_STREAMING/market_scheduler.py`, lines 17-29), with
its defaults. -/
structure MarketSchedule where
  open_hour : Nat := 9
  close_hour : Nat := 16
  pre_market_start : Nat := 4
  after_hours_end : Nat := 20
  trading_days : List Nat := [0, 1, 2, 3, 4]
deriving DecidableEq

/-- The schedule built by `MarketSchedule()` with no argument. -/
def defaultSchedule : MarketSchedule := {}

/-- `MarketScheduler.is_market_open` (`market_scheduler.py`, lines 42-54). -/
def is_market_open (s : MarketSchedule) (t : DateTime) : Bool :=
  if t.weekday ∈ s.trading_days then
    decide (s.open_hour ≤ t.hour) && decide (t.hour < s.close_hour)
  else false

/-- `MarketScheduler.is_pre_market` (`market_scheduler.py`, lines 56-65). -/
def is_pre_market (s : MarketSchedule) (t : DateTime) : Bool :=
  if t.weekday ∈ s.trading_days then
    decide (s.pre_market_start ≤ t.hour) && decide (t.hour < s.open_hour)
  else false

/-- `MarketScheduler.is_after_hours` (`market_scheduler.py`, lines 67-76). -/
def is_after_hours (s : MarketSchedule) (t : DateTime) : Bool :=
  if t.weekday ∈ s.trading_days then
    decide (s.close_hour ≤ t.hour) && decide (t.hour < s.after_hours_end)
  else false

/-- The `while True` day-scan of `get_next_market_open` (lines 96-100): step
one day at a time until the weekday is a trading day, giving up with `none`
after `fuel` steps (the Python loop diverges when no weekday trades). -/
def scanNextTradingDay (tds : List Nat) (t : DateTime) : Nat → Option DateTime
  | 0 => none
  | fuel + 1 =>
    let t1 : DateTime := { t with day := t.day + 1 }
    if t1.weekday ∈ tds then some t1 else scanNextTradingDay tds t1 fuel

/-- `MarketScheduler.get_next_market_open` (`market_scheduler.py`, lines
78-107): today at the open hour when today trades and that instant is still
ahead, otherwise the open hour of the day the scan finds.  The scan gets 7
days of fuel, enough whenever some weekday trades. -/
def get_next_market_open (s : MarketSchedule) (t : DateTime) : Option DateTime :=
  if t.weekday ∈ s.trading_days ∧ t.ltb (t.atHour s.open_hour) = true then
    some (t.atHour s.open_hour)
  else
    (scanNextTradingDay s.trading_days t 7).map (fun d => d.atHour s.open_hour)

/-- One registration of the in-memory job table of `MarketScheduler`; the
callback is an opaque token. -/
structure JobConfig where
  symbols : List String
  interval_minutes : Nat
  jobType : String
  callback : Option Nat
  created_at : DateTime
deriving DecidableEq

/-- The mutable state of `MarketScheduler`: the `scheduled_jobs` dictionary,
as an association list in insertion order. -/
structure SchedulerState where
  scheduled_jobs : List (String × JobConfig)
deriving DecidableEq

/-- `MarketScheduler.schedule_market_hours_job` (`market_scheduler.py`, lines
140-173); `now` stands for `datetime.utcnow()` at the call. -/
def schedule_market_hours_job (st : SchedulerState) (job_name : String)
    (symbols : List String) (interval_minutes : Nat) (callback : Option Nat)
    (now : DateTime) : Bool × SchedulerState :=
  if st.scheduled_jobs.any (fun p => decide (p.1 = job_name)) then (false, st)
  else
    (true,
     { scheduled_jobs := st.scheduled_jobs ++
         [(job_name,
           { symbols := symbols, interval_minutes := interval_minutes,
             jobType := "market_hours", callback := callback,
             created_at := now })] })

/-- The Python truthiness test
`if max_iterations and iteration >= max_iterations` at
`STREAM_N_POLLING/streaming_service.py`, line 88: `None` and `0` are both
falsy, so the cap fires only once a positive cap has been reached. -/
def capReached (max_iterations : Option Nat) (iteration : Nat) : Bool :=
  match max_iterations with
  | none => false
  | some m => if m = 0 then false else decide (iteration ≥ m)

/-- The control loop of `DataStreamingService._streaming_worker`
(`streaming_service.py`, lines 78-134), step-indexed: `stopFlag k` tells
whether `stop_event` is set when the loop head is reached with
`iteration = k`.  The value is `some n` when the loop exits after performing
`n` cycles within `fuel` loop-head visits, and `none` when it is still
running after all of them. -/
def streaming_worker_cycles (stopFlag : Nat → Bool)
    (max_iterations : Option Nat) : Nat → Nat → Option Nat
  | 0, _ => none
  | fuel + 1, iteration =>
    if stopFlag iteration then some iteration
    else if capReached max_iterations iteration then some iteration
    else streaming_worker_cycles stopFlag max_iterations fuel (iteration + 1)

/-- Number of stored price rows carrying a given natural key. -/
def keyCount (db : Database) (k : String × Nat × String) : Nat :=
  db.prices.countP (fun row => decide (rowKey row = k))

theorem rowKey_updateRow (r : StockPriceIntraday) (row : PriceRow) :
    rowKey (updateRow r row) = rowKey row := rfl

theorem rowKey_rowOfRecord (r : StockPriceIntraday) :
    rowKey (rowOfRecord r) = recKey r := rfl

theorem keyCount_load_single (env : Env) (db : Database)
    (r : StockPriceIntraday) (k : String × Nat × String) :
    keyCount (load_single_price_record env db r).2 k =
      if env.recordDbFails r = false ∧
         db.prices.any (fun row => decide (rowKey row = recKey r)) = false ∧
         recKey r = k
      then keyCount db k + 1 else keyCount db k := by
  unfold load_single_price_record keyCount
  by_cases hfail : env.recordDbFails r
  · simp [hfail]
  · simp only [hfail, Bool.false_eq_true, if_false]
    by_cases hany : db.prices.any (fun row => decide (rowKey row = recKey r))
    · simp only [hany, if_true]
      have hmap : (db.prices.map fun row =>
            if rowKey row = recKey r then updateRow r row else row).countP
            (fun row => decide (rowKey row = k)) =
          db.prices.countP (fun row => decide (rowKey row = k)) := by
        rw [List.countP_map]
        apply List.countP_congr
        intro a _
        by_cases hm : rowKey a = recKey r <;>
          simp [Function.comp, hm, rowKey_updateRow]
      simp [hmap, hany]
    · simp only [hany, Bool.false_eq_true, if_false]
      by_cases hk : recKey r = k
      · simp [List.countP_append, hfail, hany, hk, rowKey_rowOfRecord,
          eq_false_of_ne_true, List.countP_cons]
      · simp [List.countP_append, hany, hk, rowKey_rowOfRecord,
          List.countP_cons]

theorem keyCount_zero_of_not_any (db : Database) (r : StockPriceIntraday)
    (h : db.prices.any (fun row => decide (rowKey row = recKey r)) = false) :
    keyCount db (recKey r) = 0 := by
  unfold keyCount
  rw [List.countP_eq_zero]
  intro a ha
  have := List.any_eq_false.mp h a ha
  simpa using this

theorem keyCount_pos_of_any (db : Database) (r : StockPriceIntraday)
    (h : db.prices.any (fun row => decide (rowKey row = recKey r)) = true) :
    0 < keyCount db (recKey r) := by
  unfold keyCount
  rw [List.countP_pos]
  obtain ⟨a, ha, hp⟩ := List.any_eq_true.mp h
  exact ⟨a, ha, hp⟩

theorem load_single_wf (env : Env) (db : Database) (r : StockPriceIntraday)
    (h : ∀ k, keyCount db k ≤ 1) :
    ∀ k, keyCount (load_single_price_record env db r).2 k ≤ 1 := by
  intro k
  rw [keyCount_load_single]
  split
  · rename_i hc
    obtain ⟨hfail, hany, hk⟩ := hc
    have h0 : keyCount db (recKey r) = 0 := keyCount_zero_of_not_any db r hany
    rw [← hk, h0]
  · exact h k

theorem load_single_keyCount_one (env : Env) (db : Database)
    (r : StockPriceIntraday) (h : ∀ k, keyCount db k ≤ 1)
    (hok : env.recordDbFails r = false) :
    keyCount (load_single_price_record env db r).2 (recKey r) = 1 := by
  rw [keyCount_load_single]
  by_cases hany : db.prices.any (fun row => decide (rowKey row = recKey r))
  · have h1 := keyCount_pos_of_any db r hany
    have h2 := h (recKey r)
    simp only [hok, hany, Bool.true_eq_false, false_and, and_false, if_false]
    omega
  · have h0 : keyCount db (recKey r) = 0 :=
      keyCount_zero_of_not_any db r (by simpa using hany)
    rw [if_pos ⟨hok, by simpa using hany, rfl⟩, h0]

theorem load_single_values (env : Env) (db : Database)
    (r : StockPriceIntraday) (hok : env.recordDbFails r = false) :
    ∀ row ∈ (load_single_price_record env db r).2.prices,
      rowKey row = recKey r →
        row.open_price = r.open_price ∧ row.high_price = r.high_price ∧
        row.low_price = r.low_price ∧ row.close_price = r.close_price ∧
        row.volume = r.volume := by
  intro row hrow hkey
  unfold load_single_price_record at hrow
  rw [hok] at hrow
  simp only [Bool.false_eq_true, if_false] at hrow
  by_cases hany : db.prices.any (fun row => decide (rowKey row = recKey r))
  · rw [if_pos hany] at hrow
    simp only [List.mem_map] at hrow
    obtain ⟨a, _, ha⟩ := hrow
    by_cases hm : rowKey a = recKey r
    · rw [if_pos hm] at ha
      rw [← ha]
      exact ⟨rfl, rfl, rfl, rfl, rfl⟩
    · rw [if_neg hm] at ha
      rw [← ha] at hkey
      exact absurd hkey hm
  · rw [if_neg hany] at hrow
    simp only [List.mem_append, List.mem_singleton] at hrow
    rcases hrow with hin | heq
    · exfalso
      have h2 : ∀ x ∈ db.prices, ¬(rowKey x = recKey r) := by simpa using hany
      exact h2 row hin hkey
    · rw [heq]
      exact ⟨rfl, rfl, rfl, rfl, rfl⟩

theorem load_prices_wf (env : Env) (recs : List StockPriceIntraday) :
    ∀ db : Database, (∀ k, keyCount db k ≤ 1) →
      ∀ k, keyCount (load_intraday_prices env db recs).2 k ≤ 1 := by
  induction recs with
  | nil => intro db h k; exact h k
  | cons r tl ih =>
    intro db h k
    have h1 := load_single_wf env db r h
    simpa [load_intraday_prices] using
      ih (load_single_price_record env db r).2 h1 k

theorem load_single_logs (env : Env) (db : Database) (r : StockPriceIntraday) :
    (load_single_price_record env db r).2.logs = db.logs := by
  unfold load_single_price_record
  split
  · rfl
  · split <;> rfl

theorem load_prices_logs (env : Env) (recs : List StockPriceIntraday) :
    ∀ db : Database, (load_intraday_prices env db recs).2.logs = db.logs := by
  induction recs with
  | nil => intro db; rfl
  | cons r tl ih =>
    intro db
    simpa [load_intraday_prices, ih] using load_single_logs env db r

theorem load_stock_logs (env : Env) (db : Database) (st : Stock) :
    (load_stock env db st).2.logs = db.logs := by
  unfold load_stock
  split
  · rfl
  · split <;> rfl

theorem load_stock_bit (env : Env) (db : Database) (st : Stock) :
    (load_stock env db st).1 = !env.stockDbFails st.symbol := by
  unfold load_stock
  by_cases h : env.stockDbFails st.symbol
  · simp [h]
  · simp only [h, Bool.false_eq_true, if_false, Bool.not_false]
    split <;> rfl

theorem load_single_bit (env : Env) (db : Database) (r : StockPriceIntraday) :
    (load_single_price_record env db r).1 = !env.recordDbFails r := by
  unfold load_single_price_record
  by_cases h : env.recordDbFails r
  · simp [h]
  · simp only [h, Bool.false_eq_true, if_false, Bool.not_false]
    split <;> rfl

theorem load_prices_count (env : Env) (recs : List StockPriceIntraday) :
    ∀ db : Database, (load_intraday_prices env db recs).1 =
      recs.countP (fun r => !env.recordDbFails r) := by
  induction recs with
  | nil => intro db; rfl
  | cons r tl ih =>
    intro db
    simp only [load_intraday_prices, List.countP_cons, ih, load_single_bit]
    cases env.recordDbFails r <;> simp [Nat.add_comm]

/-- An environment in which no database call raises and every fetch fails at
transport level; used to instantiate theorems at concrete inputs. -/
def envNoFault : Env :=
  { fetch := fun _ => FetchResult.requestFailure,
    dbConnFails := fun _ => false,
    stockDbFails := fun _ => false,
    recordDbFails := fun _ => false }

/-- A concrete valid price record. -/
def recV1 : StockPriceIntraday :=
  { stock_symbol := "AAPL", timestamp := 100, open_price := 10,
    high_price := 12, low_price := 9, close_price := 11, volume := 500,
    interval := "5min" }

/-- The same natural key as `recV1` with different OHLCV values. -/
def recV2 : StockPriceIntraday :=
  { stock_symbol := "AAPL", timestamp := 100, open_price := 20,
    high_price := 22, low_price := 19, close_price := 21, volume := 700,
    interval := "5min" }

/-- Claim C2: starting from any store satisfying the natural-key uniqueness
constraint, loading a record and then a second record with the same
(symbol, timestamp, interval) key leaves exactly one stored row for that key,
that row carries the OHLCV values of the second record, and the per-key row
count stays at most one after any sequence of loads. -/
theorem c2_idempotent_upsert (env : Env) (db : Database)
    (r r' : StockPriceIntraday)
    (hwf : ∀ k, keyCount db k ≤ 1)
    (hkey : recKey r = recKey r')
    (hr : env.recordDbFails r = false)
    (hr' : env.recordDbFails r' = false) :
    keyCount (load_single_price_record env
        (load_single_price_record env db r).2 r').2 (recKey r) = 1 ∧
    (∀ row ∈ (load_single_price_record env
        (load_single_price_record env db r).2 r').2.prices,
      rowKey row = recKey r →
        row.open_price = r'.open_price ∧ row.high_price = r'.high_price ∧
        row.low_price = r'.low_price ∧ row.close_price = r'.close_price ∧
        row.volume = r'.volume) ∧
    (∀ (recs : List StockPriceIntraday) (k : String × Nat × String),
      keyCount (load_intraday_prices env db recs).2 k ≤ 1) := by
  have hwf1 := load_single_wf env db r hwf
  refine ⟨?_, ?_, fun recs k => load_prices_wf env recs db hwf k⟩
  · rw [hkey]
    exact load_single_keyCount_one env _ r' hwf1 hr'
  · intro row hrow hk
    exact load_single_values env _ r' hr' row hrow (by rw [← hkey]; exact hk)

theorem c2_witness :
    (∀ k, keyCount emptyDatabase k ≤ 1) ∧
    recKey recV1 = recKey recV2 ∧
    keyCount (load_single_price_record envNoFault
        (load_single_price_record envNoFault emptyDatabase recV1).2
        recV2).2 (recKey recV1) = 1 :=
  ⟨fun _ => Nat.zero_le 1, rfl,
   (c2_idempotent_upsert envNoFault emptyDatabase recV1 recV2
      (fun _ => Nat.zero_le 1) rfl rfl rfl).1⟩

/-- The job-log rows one call of `load_transformed_data` appends, as the
amended claim C3 predicts them: none for a falsy input, none when the stock
load fails, one FAILED row when a key lookup raises, and one SUCCESS row
otherwise. -/
def predictedLogRows (env : Env) (input : Option TransformedDict) :
    List JobLog :=
  match input with
  | none => []
  | some td =>
    match td.meta_symbol, td.stock, td.price_records with
    | some symbol, some stock, some price_records =>
      if env.stockDbFails stock.symbol then []
      else [{ job_name := "intraday_etl_" ++ symbol, status := "SUCCESS",
              records_processed :=
                price_records.countP (fun r => !env.recordDbFails r),
              total_records := price_records.length, error_message := none }]
    | _, _, _ =>
      [{ job_name := "intraday_etl_" ++ td.meta_symbol.getD "unknown",
         status := "FAILED", records_processed := 0, total_records := 0,
         error_message := some "KeyError" }]

/-- Claim C3 (amended): one call of `load_transformed_data` appends at most
one job-log row; it appends exactly one — SUCCESS when the stock and price
loads ran without raising, FAILED when a key lookup raised — except on a
falsy input or when the stock load fails, where it appends none. -/
theorem c3_audit_log_rows (env : Env) (db : Database)
    (input : Option TransformedDict) :
    (load_transformed_data env db input).2.logs =
      db.logs ++ predictedLogRows env input ∧
    (predictedLogRows env input).length ≤ 1 := by
  constructor
  · cases input with
    | none => simp [load_transformed_data, predictedLogRows]
    | some td =>
      rcases td with ⟨msym, mstock, mrecs⟩
      cases msym with
      | none => simp [load_transformed_data, predictedLogRows, log_etl_job]
      | some symbol =>
        cases mstock with
        | none => simp [load_transformed_data, predictedLogRows, log_etl_job]
        | some stock =>
          cases mrecs with
          | none => simp [load_transformed_data, predictedLogRows, log_etl_job]
          | some price_records =>
            simp only [load_transformed_data, predictedLogRows]
            by_cases hf : env.stockDbFails stock.symbol
            · rw [if_pos (by simp [load_stock_bit, hf])]
              simp [load_stock, hf]
            · rw [if_neg (by simp [load_stock_bit, hf])]
              simp only [log_etl_job, load_prices_logs, load_stock_logs,
                load_prices_count, hf, Bool.false_eq_true, if_false]
  · cases input with
    | none => simp [predictedLogRows]
    | some td =>
      rcases td with ⟨msym, mstock, mrecs⟩
      cases msym <;> cases mstock <;> cases mrecs <;>
        simp [predictedLogRows] <;> split <;> simp

/-- An environment in which the stock-table insert raises for every symbol. -/
def envStockFault : Env :=
  { fetch := fun _ => FetchResult.requestFailure,
    dbConnFails := fun _ => false,
    stockDbFails := fun _ => true,
    recordDbFails := fun _ => false }

/-- A well-formed transformed payload for one symbol with one price record. -/
def tdInputAAPL : TransformedDict :=
  { meta_symbol := some "AAPL", stock := some (create_stock_object "AAPL"),
    price_records := some [recV1] }

theorem c3_counterexample :
    (load_transformed_data envStockFault emptyDatabase
        (some tdInputAAPL)).1.success = false ∧
    (load_transformed_data envStockFault emptyDatabase
        (some tdInputAAPL)).2.logs.length = 0 :=
  ⟨rfl, rfl⟩

/-- Claim C4 (amended): when the time-series container is present and
well-formed, the transform fails exactly when no entry passes parsing and
validation; a zero-valid-record payload is therefore a failure, not a
success. -/
theorem c4_transform_failure_condition (rd : RawData)
    (ts : List (String × RawEntry)) (hts : rd.time_series = some ts) :
    (transform_intraday_data (some rd) = none ↔
      create_price_objects rd.symbol ts rd.interval = []) := by
  simp only [transform_intraday_data, hts]
  by_cases he : (create_price_objects rd.symbol ts rd.interval).isEmpty
  · simp only [he, if_true, true_iff]
    exact List.isEmpty_iff.mp he
  · simp only [he, Bool.false_eq_true, if_false]
    constructor
    · intro h
      exact absurd h (by simp)
    · intro h
      exact absurd (List.isEmpty_iff.mpr h) (by simpa using he)

/-- A series whose single entry violates the OHLC invariant
(high 90 below max(open, close) = 100). -/
def badEntrySeries : List (String × RawEntry) :=
  [("2024-01-15 10:00:00",
    { ts := some 0, openF := some 100, highF := some 90, lowF := some 80,
      closeF := some 95, volumeF := some 1000 })]

/-- A raw payload whose time-series container is present and well-formed but
in which zero entries pass validation. -/
def c4RawData : RawData :=
  { symbol := "AAPL", interval := "5min", time_series := some badEntrySeries }

theorem c4_counterexample :
    c4RawData.time_series = some badEntrySeries ∧
    transform_intraday_data (some c4RawData) = none := by
  refine ⟨rfl, ?_⟩
  decide

theorem c4_witness :
    (transform_intraday_data (some c4RawData) = none ↔
      create_price_objects c4RawData.symbol badEntrySeries
        c4RawData.interval = []) :=
  c4_transform_failure_condition c4RawData badEntrySeries rfl

/-- Claim C5 (amended): the control flow of the extractor distinguishes the
five outcomes of the taxonomy, but its returned value collapses every
non-success outcome to `None`: the return is a payload exactly when the
outcome is Success, and any returned payload carries a non-empty time-series
map — the empty-series case returns `None` exactly like the error cases. -/
theorem c5_extract_classification (fetched : FetchResult)
    (symbol interval : String) :
    ((extract_intraday_data fetched symbol interval).isSome = true ↔
      classify_extract fetched = ExtractOutcome.success) ∧
    (∀ rd, extract_intraday_data fetched symbol interval = some rd →
      ∃ ts, rd.time_series = some ts ∧ ts ≠ []) :=
  ⟨extract_isSome_iff fetched symbol interval,
   fun rd hrd => extract_nonempty fetched symbol interval rd hrd⟩

/-- A series with one entry passing every validation check. -/
def goodSeries : List (String × RawEntry) :=
  [("2024-01-15 10:00:00",
    { ts := some 0, openF := some 10, highF := some 12, lowF := some 9,
      closeF := some 11, volumeF := some 500 })]

theorem c5_witness :
    (extract_intraday_data
      (FetchResult.response false false (some goodSeries))
      "IBM" "5min").isSome = true :=
  (c5_extract_classification
    (FetchResult.response false false (some goodSeries)) "IBM" "5min").1.mpr rfl

theorem c5_counterexample :
    classify_extract (FetchResult.response false false (some [])) =
      ExtractOutcome.emptySeries ∧
    extract_intraday_data (FetchResult.response false false (some []))
      "IBM" "5min" = none ∧
    extract_intraday_data FetchResult.requestFailure "IBM" "5min" = none :=
  ⟨rfl, rfl, rfl⟩

theorem entryRecord_validates (s i : String) (e : RawEntry)
    (r : StockPriceIntraday) (h : entryRecord s i e = some r) :
    validate_price_data r.open_price r.high_price r.low_price r.close_price
      r.volume = true := by
  unfold entryRecord at h
  rcases e with ⟨ts, o, hi, l, c, v⟩
  cases ts <;> cases o <;> cases hi <;> cases l <;> cases c <;> cases v <;>
    simp only [Option.ite_none_right_eq_some, Option.some_inj,
      reduceCtorEq] at h
  obtain ⟨hval, hrec⟩ := h
  rw [← hrec]
  exact hval

/-- Claim C6: every record the transform step produces satisfies the OHLC
invariants (positive prices, non-negative volume, high at least max(open,
close), low at most min(open, close), sanity ceiling), and the number of
produced records equals the number of accepted raw entries, so each invalid
entry is skipped without failing the batch. -/
theorem c6_ohlc_invariant_enforcement (symbol intrv : String)
    (time_series : List (String × RawEntry)) :
    (∀ r ∈ create_price_objects symbol time_series intrv,
      0 < r.open_price ∧ 0 < r.high_price ∧ 0 < r.low_price ∧
      0 < r.close_price ∧ 0 ≤ r.volume ∧
      max r.open_price r.close_price ≤ r.high_price ∧
      r.low_price ≤ min r.open_price r.close_price ∧
      r.open_price ≤ 1000000 ∧ r.high_price ≤ 1000000 ∧
      r.low_price ≤ 1000000 ∧ r.close_price ≤ 1000000) ∧
    (create_price_objects symbol time_series intrv).length =
      time_series.countP (fun p => entryAccepted p.2) := by
  constructor
  · intro r hr
    obtain ⟨p, _, hrec⟩ := List.mem_filterMap.mp hr
    exact (validate_price_data_spec r.open_price r.high_price r.low_price
      r.close_price r.volume).mp (entryRecord_validates symbol intrv p.2 r hrec)
  · exact create_price_objects_length symbol intrv time_series

/-- A valid raw entry at a given abstract timestamp. -/
def goodEntry (t : Nat) : RawEntry :=
  { ts := some t, openF := some 10, highF := some 12, lowF := some 9,
    closeF := some 11, volumeF := some 500 }

/-- Ten raw entries of which exactly one (the fourth, with high 9 below
max(open, close) = 10) fails validation. -/
def c6Batch : List (String × RawEntry) :=
  [("t1", goodEntry 1), ("t2", goodEntry 2), ("t3", goodEntry 3),
   ("t4", { ts := some 4, openF := some 10, highF := some 9,
            lowF := some 8, closeF := some 10, volumeF := some 500 }),
   ("t5", goodEntry 5), ("t6", goodEntry 6), ("t7", goodEntry 7),
   ("t8", goodEntry 8), ("t9", goodEntry 9), ("t10", goodEntry 10)]

theorem c6_witness :
    c6Batch.length = 10 ∧
    (create_price_objects "AAPL" c6Batch "5min").length = 9 := by
  refine ⟨rfl, ?_⟩
  rw [(c6_ohlc_invariant_enforcement "AAPL" "5min" c6Batch).2]
  decide

theorem load_transformed_toDict_eq (env : Env) (db : Database)
    (td : TransformedData) :
    load_transformed_data env db (some (toDict td)) =
      (if (load_stock env db td.stock).1 = false then
        ({ success := false, prices_loaded := 0, total_price_records := 0,
           error := some "Failed to load stock information" },
         (load_stock env db td.stock).2)
      else
        ({ success := true,
           prices_loaded := (load_intraday_prices env
             (load_stock env db td.stock).2 td.price_records).1,
           total_price_records := td.price_records.length, error := none },
         log_etl_job (load_intraday_prices env
             (load_stock env db td.stock).2 td.price_records).2
           td.meta_symbol td.price_records.length
           (load_intraday_prices env
             (load_stock env db td.stock).2 td.price_records).1
           "SUCCESS" none)) := rfl

theorem load_transformed_success (env : Env) (db : Database)
    (td : TransformedData) :
    (load_transformed_data env db (some (toDict td))).1.success =
      !env.stockDbFails td.stock.symbol := by
  rw [load_transformed_toDict_eq, load_stock_bit]
  by_cases hf : env.stockDbFails td.stock.symbol <;> simp [hf]

theorem load_transformed_count (env : Env) (db : Database)
    (td : TransformedData) :
    (load_transformed_data env db (some (toDict td))).1.prices_loaded =
      if env.stockDbFails td.stock.symbol then 0
      else td.price_records.countP (fun r => !env.recordDbFails r) := by
  rw [load_transformed_toDict_eq, load_stock_bit]
  by_cases hf : env.stockDbFails td.stock.symbol <;>
    simp [hf, load_prices_count]

theorem process_stock_count_const (env : Env) (db db' : Database)
    (s i : String) :
    (process_stock_intraday env db s i).1 =
      (process_stock_intraday env db' s i).1 := by
  unfold process_stock_intraday
  by_cases hc : env.dbConnFails s
  · simp [hc]
  · simp only [hc, Bool.false_eq_true, if_false]
    cases hext : extract_intraday_data (env.fetch s) s i with
    | none => rfl
    | some raw =>
      simp only []
      cases htr : transform_intraday_data (some raw) with
      | none => rfl
      | some td =>
        simp only []
        rw [load_transformed_success, load_transformed_success,
          load_transformed_count, load_transformed_count]
        by_cases hf : env.stockDbFails td.stock.symbol <;> simp [hf]

theorem lookup_insertAssoc_self (m : List (String × Nat)) (k : String)
    (v : Nat) :
    lookupAssoc (insertAssoc m k v) k = some v := by
  induction m with
  | nil => simp [insertAssoc, lookupAssoc]
  | cons a tl ih =>
    by_cases ha : a.1 = k <;> simp [insertAssoc, lookupAssoc, ha, ih]

theorem lookup_insertAssoc_ne (m : List (String × Nat)) (k k' : String)
    (v : Nat) (h : k' ≠ k) :
    lookupAssoc (insertAssoc m k v) k' = lookupAssoc m k' := by
  induction m with
  | nil => simp [insertAssoc, lookupAssoc, Ne.symm h]
  | cons a tl ih =>
    by_cases ha : a.1 = k
    · simp [insertAssoc, lookupAssoc, ha, Ne.symm h]
    · simp only [insertAssoc, if_neg ha]
      by_cases ha' : a.1 = k' <;> simp [lookupAssoc, ha', ih]

theorem go_lookup_not_mem (env : Env) (i : String) (symbols : List String) :
    ∀ (m : List (String × Nat)) (db : Database) (s : String), s ∉ symbols →
      lookupAssoc (process_multiple_go env i symbols (m, db)).1 s =
        lookupAssoc m s := by
  induction symbols with
  | nil => intro m db s _; rfl
  | cons hd tl ih =>
    intro m db s hs
    rw [List.mem_cons, not_or] at hs
    simp only [process_multiple_go]
    rw [ih _ _ _ hs.2, lookup_insertAssoc_ne _ _ _ _ hs.1]

theorem go_lookup_mem (env : Env) (i : String) (symbols : List String) :
    ∀ (m : List (String × Nat)) (db db0 : Database) (s : String),
      s ∈ symbols →
      lookupAssoc (process_multiple_go env i symbols (m, db)).1 s =
        some ((process_stock_intraday env db0 s i).1) := by
  induction symbols with
  | nil => intro m db db0 s hs; exact absurd hs (List.not_mem_nil s)
  | cons hd tl ih =>
    intro m db db0 s hs
    by_cases htl : s ∈ tl
    · simp only [process_multiple_go]
      exact ih _ _ db0 s htl
    · have hhd : s = hd := by
        rcases List.mem_cons.mp hs with h | h
        · exact h
        · exact absurd h htl
      subst hhd
      simp only [process_multiple_go]
      rw [go_lookup_not_mem env i tl _ _ s htl, lookup_insertAssoc_self,
        process_stock_count_const env db db0 s i]

/-- Claim C1: `process_multiple_stocks_intraday` gives every input symbol an
entry equal to the outcome of its own per-symbol pipeline run (so every symbol
is processed and no failure of one symbol can change the result of another);
a symbol whose extraction does not succeed gets 0; a symbol whose pipeline
reaches the load step with no database fault gets the count of its loaded
records.  All fault paths return through these values: the model is a total
function, as the per-symbol handlers in the source catch every exception. -/
theorem c1_partial_failure_isolation (env : Env) (db : Database)
    (symbols : List String) (interval : String) (s : String)
    (hs : s ∈ symbols) :
    lookupAssoc (process_multiple_stocks_intraday env db symbols interval).1
        s = some ((process_stock_intraday env db s interval).1) ∧
    (classify_extract (env.fetch s) ≠ ExtractOutcome.success →
      (process_stock_intraday env db s interval).1 = 0) ∧
    (∀ raw td, env.dbConnFails s = false →
      extract_intraday_data (env.fetch s) s interval = some raw →
      transform_intraday_data (some raw) = some td →
      env.stockDbFails td.stock.symbol = false →
      (process_stock_intraday env db s interval).1 =
        td.price_records.countP (fun r => !env.recordDbFails r)) := by
  refine ⟨go_lookup_mem env interval symbols [] db db s hs, ?_, ?_⟩
  · intro hcl
    unfold process_stock_intraday
    by_cases hc : env.dbConnFails s
    · simp [hc]
    · have hnone : extract_intraday_data (env.fetch s) s interval = none := by
        cases hext : extract_intraday_data (env.fetch s) s interval with
        | none => rfl
        | some raw =>
          exfalso
          apply hcl
          rw [← extract_isSome_iff (env.fetch s) s interval, hext]
          rfl
      simp [hc, hnone]
  · intro raw td hc hext htr hf
    unfold process_stock_intraday
    simp only [hc, Bool.false_eq_true, if_false, hext, htr]
    rw [load_transformed_success, load_transformed_count]
    simp [hf]

/-- An environment realizing the scenario of the claim: extraction fails for
the symbol B at transport level and succeeds with one valid entry for every
other symbol; no database call raises. -/
def c1Env : Env :=
  { fetch := fun s =>
      if s = "B" then FetchResult.requestFailure
      else FetchResult.response false false (some goodSeries),
    dbConnFails := fun _ => false,
    stockDbFails := fun _ => false,
    recordDbFails := fun _ => false }

theorem c1_witness :
    ("B" ∈ (["A", "B", "C"] : List String)) ∧
    ("C" ∈ (["A", "B", "C"] : List String)) ∧
    lookupAssoc (process_multiple_stocks_intraday c1Env emptyDatabase
      ["A", "B", "C"] "5min").1 "B" = some 0 ∧
    lookupAssoc (process_multiple_stocks_intraday c1Env emptyDatabase
      ["A", "B", "C"] "5min").1 "C" = some 1 := by
  refine ⟨by decide, by decide, ?_, ?_⟩
  · rw [(c1_partial_failure_isolation c1Env emptyDatabase ["A", "B", "C"]
      "5min" "B" (by decide)).1]
    decide
  · rw [(c1_partial_failure_isolation c1Env emptyDatabase ["A", "B", "C"]
      "5min" "C" (by decide)).1]
    decide

/-- Claim C7: each market-window predicate is false off trading days and
otherwise an inclusive-lower / exclusive-upper hour test, with the concrete
evaluations of the specification at the default schedule (day index mod 7:
Monday 0, Wednesday 2, Saturday 5). -/
theorem c7_market_window_predicates (s : MarketSchedule) (t : DateTime) :
    (is_market_open s t =
      (decide (t.weekday ∈ s.trading_days) &&
       (decide (s.open_hour ≤ t.hour) && decide (t.hour < s.close_hour)))) ∧
    (is_pre_market s t =
      (decide (t.weekday ∈ s.trading_days) &&
       (decide (s.pre_market_start ≤ t.hour) &&
        decide (t.hour < s.open_hour)))) ∧
    (is_after_hours s t =
      (decide (t.weekday ∈ s.trading_days) &&
       (decide (s.close_hour ≤ t.hour) &&
        decide (t.hour < s.after_hours_end)))) ∧
    is_market_open defaultSchedule ⟨5, 10, 0, 0⟩ = false ∧
    is_market_open defaultSchedule ⟨2, 10, 0, 0⟩ = true ∧
    is_market_open defaultSchedule ⟨2, 8, 0, 0⟩ = false ∧
    is_pre_market defaultSchedule ⟨2, 6, 0, 0⟩ = true ∧
    is_after_hours defaultSchedule ⟨2, 17, 0, 0⟩ = true ∧
    is_after_hours defaultSchedule ⟨2, 21, 0, 0⟩ = false := by
  refine ⟨?_, ?_, ?_, by decide, by decide, by decide, by decide, by decide,
    by decide⟩
  · unfold is_market_open
    split <;> simp_all
  · unfold is_pre_market
    split <;> simp_all
  · unfold is_after_hours
    split <;> simp_all

/-- Modelled from the claim wording: the number of days strictly forward from
a weekday (Monday = 0) to the next Monday-to-Friday trading day. -/
def daysToNextTradingDay (w : Nat) : Nat :=
  if w = 4 then 3 else if w = 5 then 2 else 1

theorem scan_default (t : DateTime) :
    scanNextTradingDay [0, 1, 2, 3, 4] t 7 =
      some { t with day := t.day + daysToNextTradingDay (t.day % 7) } := by
  rcases t with ⟨d, hh, mm, ss⟩
  have hcases : d % 7 = 0 ∨ d % 7 = 1 ∨ d % 7 = 2 ∨ d % 7 = 3 ∨
      d % 7 = 4 ∨ d % 7 = 5 ∨ d % 7 = 6 := by omega
  rcases hcases with hw | hw | hw | hw | hw | hw | hw
  · have h1 : (d + 1) % 7 = 1 := by omega
    simp [scanNextTradingDay, DateTime.weekday, daysToNextTradingDay, h1, hw]
  · have h1 : (d + 1) % 7 = 2 := by omega
    simp [scanNextTradingDay, DateTime.weekday, daysToNextTradingDay, h1, hw]
  · have h1 : (d + 1) % 7 = 3 := by omega
    simp [scanNextTradingDay, DateTime.weekday, daysToNextTradingDay, h1, hw]
  · have h1 : (d + 1) % 7 = 4 := by omega
    simp [scanNextTradingDay, DateTime.weekday, daysToNextTradingDay, h1, hw]
  · have h1 : (d + 1) % 7 = 5 := by omega
    have h2 : (d + 1 + 1) % 7 = 6 := by omega
    have h3 : (d + 1 + 1 + 1) % 7 = 0 := by omega
    simp [scanNextTradingDay, DateTime.weekday, daysToNextTradingDay,
      h1, h2, h3, hw]
  · have h1 : (d + 1) % 7 = 6 := by omega
    have h2 : (d + 1 + 1) % 7 = 0 := by omega
    simp [scanNextTradingDay, DateTime.weekday, daysToNextTradingDay,
      h1, h2, hw]
  · have h1 : (d + 1) % 7 = 0 := by omega
    simp [scanNextTradingDay, DateTime.weekday, daysToNextTradingDay, h1, hw]

/-- Claim C8: with the default Monday-to-Friday schedule and open hour 9,
the next market open is today at 9:00 when today trades and 9:00 is still
ahead, and otherwise 9:00 of the next trading day found by the forward scan;
in particular Friday 20:00 yields the following Monday (three days later,
day index 0 mod 7) at 9:00. -/
theorem c8_next_market_open (t : DateTime) :
    (t.weekday ∈ defaultSchedule.trading_days ∧ t.ltb (t.atHour 9) = true →
      get_next_market_open defaultSchedule t = some (t.atHour 9)) ∧
    (¬(t.weekday ∈ defaultSchedule.trading_days ∧
        t.ltb (t.atHour 9) = true) →
      get_next_market_open defaultSchedule t =
        some ⟨t.day + daysToNextTradingDay t.weekday, 9, 0, 0⟩) ∧
    (t.weekday = 4 → t.hour = 20 →
      get_next_market_open defaultSchedule t = some ⟨t.day + 3, 9, 0, 0⟩ ∧
      (t.day + 3) % 7 = 0) := by
  have key2 : ¬(t.weekday ∈ defaultSchedule.trading_days ∧
      t.ltb (t.atHour 9) = true) →
      get_next_market_open defaultSchedule t =
        some ⟨t.day + daysToNextTradingDay t.weekday, 9, 0, 0⟩ := by
    intro hcond
    unfold get_next_market_open
    split
    · rename_i hpos
      exact absurd hpos hcond
    · rw [show defaultSchedule.trading_days = [0, 1, 2, 3, 4] from rfl,
        scan_default]
      rfl
  refine ⟨?_, key2, ?_⟩
  · intro hcond
    unfold get_next_market_open
    split
    · rfl
    · rename_i hneg
      exact absurd hcond hneg
  · intro hw hh
    have hnot : ¬(t.weekday ∈ defaultSchedule.trading_days ∧
        t.ltb (t.atHour 9) = true) := by
      rintro ⟨-, hlt⟩
      simp [DateTime.ltb, DateTime.atHour, hh] at hlt
    refine ⟨?_, ?_⟩
    · rw [key2 hnot, hw]
      rfl
    · unfold DateTime.weekday at hw
      omega

theorem c8_witness :
    get_next_market_open defaultSchedule ⟨4, 20, 0, 0⟩ =
      some ⟨7, 9, 0, 0⟩ ∧ (4 + 3) % 7 = 0 :=
  (c8_next_market_open ⟨4, 20, 0, 0⟩).2.2 rfl rfl

/-- Claim C9: registering a job under a fresh name succeeds and stores the
registration; a second registration under the same name returns false and
leaves the job table, with the original registration in it, unchanged. -/
theorem c9_duplicate_job_registration (st : SchedulerState) (job_name : String)
    (symbols symbols2 : List String) (im im2 : Nat) (cb cb2 : Option Nat)
    (now now2 : DateTime)
    (hfree : st.scheduled_jobs.any (fun p => decide (p.1 = job_name)) = false) :
    (schedule_market_hours_job st job_name symbols im cb now).1 = true ∧
    (job_name, JobConfig.mk symbols im "market_hours" cb now) ∈
      (schedule_market_hours_job st job_name symbols im cb now).2.scheduled_jobs ∧
    (schedule_market_hours_job
        (schedule_market_hours_job st job_name symbols im cb now).2
        job_name symbols2 im2 cb2 now2).1 = false ∧
    (schedule_market_hours_job
        (schedule_market_hours_job st job_name symbols im cb now).2
        job_name symbols2 im2 cb2 now2).2 =
      (schedule_market_hours_job st job_name symbols im cb now).2 := by
  have h1 : schedule_market_hours_job st job_name symbols im cb now =
      (true, SchedulerState.mk (st.scheduled_jobs ++
        [(job_name, JobConfig.mk symbols im "market_hours" cb now)])) := by
    unfold schedule_market_hours_job
    rw [if_neg (by simp [hfree])]
  have h2 : ((st.scheduled_jobs ++
      [(job_name, JobConfig.mk symbols im "market_hours" cb now)]).any
        (fun p => decide (p.1 = job_name))) = true := by
    simp [List.any_append]
  refine ⟨by rw [h1], ?_, ?_, ?_⟩
  · rw [h1]
    exact List.mem_append_right _ (List.mem_singleton.mpr rfl)
  · rw [h1]
    unfold schedule_market_hours_job
    rw [if_pos (by simpa using h2)]
  · rw [h1]
    unfold schedule_market_hours_job
    rw [if_pos (by simpa using h2)]

theorem c9_witness :
    (schedule_market_hours_job ⟨[]⟩ "x" ["AAPL"] 5 none ⟨0, 0, 0, 0⟩).1 =
      true ∧
    (schedule_market_hours_job
        (schedule_market_hours_job ⟨[]⟩ "x" ["AAPL"] 5 none ⟨0, 0, 0, 0⟩).2
        "x" ["MSFT"] 10 none ⟨1, 0, 0, 0⟩).1 = false ∧
    (schedule_market_hours_job
        (schedule_market_hours_job ⟨[]⟩ "x" ["AAPL"] 5 none ⟨0, 0, 0, 0⟩).2
        "x" ["MSFT"] 10 none ⟨1, 0, 0, 0⟩).2 =
      (schedule_market_hours_job ⟨[]⟩ "x" ["AAPL"] 5 none ⟨0, 0, 0, 0⟩).2 := by
  have h := c9_duplicate_job_registration ⟨[]⟩ "x" ["AAPL"] ["MSFT"] 5 10
    none none ⟨0, 0, 0, 0⟩ ⟨1, 0, 0, 0⟩ rfl
  exact ⟨h.1, h.2.2.1, h.2.2.2⟩

theorem streaming_cycles_none (fuel : Nat) :
    ∀ i, streaming_worker_cycles (fun _ => false) (some 0) fuel i = none := by
  induction fuel with
  | zero => intro i; rfl
  | succ n ih =>
    intro i
    simpa [streaming_worker_cycles, capReached] using ih (i + 1)

theorem streaming_cycles_stop (k : Nat) :
    ∀ fuel i, i ≤ k → k < i + fuel →
      streaming_worker_cycles (fun j => decide (k ≤ j)) (some 0) fuel i =
        some k := by
  intro fuel
  induction fuel with
  | zero => intro i h1 h2; omega
  | succ n ih =>
    intro i h1 h2
    by_cases hik : k ≤ i
    · have hik2 : i = k := le_antisymm h1 hik
      subst hik2
      simp [streaming_worker_cycles]
    · simp only [streaming_worker_cycles, capReached]
      rw [if_neg (by simp [hik]), if_neg (by simp)]
      exact ih (i + 1) (by omega) (by omega)

theorem streaming_cycles_le (n : Nat) (hn : 0 < n) (stopFlag : Nat → Bool) :
    ∀ fuel i m, i ≤ n →
      streaming_worker_cycles stopFlag (some n) fuel i = some m → m ≤ n := by
  intro fuel
  induction fuel with
  | zero =>
    intro i m _ h
    simp [streaming_worker_cycles] at h
  | succ f ih =>
    intro i m hi h
    rw [streaming_worker_cycles] at h
    by_cases hs : stopFlag i
    · rw [if_pos hs] at h
      have := Option.some_inj.mp h
      omega
    · rw [if_neg (by simp [hs])] at h
      by_cases hc : capReached (some n) i = true
      · rw [if_pos hc] at h
        have := Option.some_inj.mp h
        omega
      · rw [if_neg hc] at h
        have hlt : i < n := by
          by_contra hge
          apply hc
          simp only [capReached]
          rw [if_neg (by omega)]
          simp
          omega
        exact ih (i + 1) m (by omega) h

theorem streaming_cycles_exact (n : Nat) (hn : 0 < n) :
    ∀ fuel i, i ≤ n → n < i + fuel →
      streaming_worker_cycles (fun _ => false) (some n) fuel i = some n := by
  intro fuel
  induction fuel with
  | zero => intro i h1 h2; omega
  | succ f ih =>
    intro i h1 h2
    by_cases hin : i = n
    · subst hin
      simp only [streaming_worker_cycles, capReached]
      rw [if_neg (by simp), if_pos]
      rw [if_neg (by omega)]
      simp
    · simp only [streaming_worker_cycles, capReached]
      rw [if_neg (by simp), if_neg (by rw [if_neg (by omega)]; simp; omega)]
      exact ih (i + 1) (by omega) (by omega)

/-- Claim C10: with `max_iterations = 0` the cap check never fires (0 is
falsy, like an unset cap), so the loop performs cycles until the stop flag is
set and exits after zero cycles only if the flag was set from the start;
with a positive cap `n` the loop performs at most `n` cycles, and exactly `n`
when the stop flag is never set. -/
theorem c10_streaming_iteration_cap :
    (∀ i, capReached (some 0) i = false) ∧
    (∀ fuel, streaming_worker_cycles (fun _ => false) (some 0) fuel 0 =
      none) ∧
    (∀ k fuel, k < fuel →
      streaming_worker_cycles (fun j => decide (k ≤ j)) (some 0) fuel 0 =
        some k) ∧
    (∀ (n fuel m : Nat) (stopFlag : Nat → Bool), 0 < n →
      streaming_worker_cycles stopFlag (some n) fuel 0 = some m → m ≤ n) ∧
    (∀ n fuel : Nat, 0 < n → n < fuel →
      streaming_worker_cycles (fun _ => false) (some n) fuel 0 = some n) :=
  ⟨fun _ => rfl,
   fun fuel => streaming_cycles_none fuel 0,
   fun k fuel h => streaming_cycles_stop k fuel 0 (Nat.zero_le k) (by omega),
   fun n fuel m stopFlag hn h =>
     streaming_cycles_le n hn stopFlag fuel 0 m (Nat.zero_le n) h,
   fun n fuel hn h =>
     streaming_cycles_exact n hn fuel 0 (Nat.zero_le n) (by omega)⟩

theorem c10_witness :
    streaming_worker_cycles (fun _ => false) (some 0) 50 0 = none ∧
    streaming_worker_cycles (fun j => decide (2 ≤ j)) (some 0) 50 0 =
      some 2 ∧
    streaming_worker_cycles (fun _ => false) (some 3) 50 0 = some 3 :=
  ⟨c10_streaming_iteration_cap.2.1 50,
   c10_streaming_iteration_cap.2.2.1 2 50 (by decide),
   c10_streaming_iteration_cap.2.2.2.2 3 50 (by decide) (by decide)⟩

end AVETL
